import Mathlib

/-!
Shallow embedding of the consensus core of the `blockchain_v3` repository
(`backend/models/{transaction,transaction_pool,block,blockchain}.py`,
`backend/utils/{cryptohash,hex_to_binary}.py`, `backend/core/config.py`).

Python `float` amounts are modelled as exact rationals (`ℚ`); every constant
appearing in the code is an exact decimal, so the arithmetic that the claims
depend on is exact.  Python exceptions are modelled as `Except String`;
`raise` of any exception kind becomes `Except.error` with a message tag.

Rational arithmetic is performed through `qadd`/`qsub`/`qmul`/`qdiv` below,
which are definitionally kernel-reducible (unlike the `@[irreducible]`
`Rat.add` &c.) and are proved equal to the field operations of `ℚ`, so that
concrete runs of the embedded code can be checked by `decide`.
-/

/-- Kernel-reducible addition on `ℚ` (same normal form as `Rat.add`). -/
def qadd (a b : ℚ) : ℚ := mkRat (a.num * b.den + b.num * a.den) (a.den * b.den)

/-- Kernel-reducible subtraction on `ℚ`. -/
def qsub (a b : ℚ) : ℚ := mkRat (a.num * b.den - b.num * a.den) (a.den * b.den)

/-- Kernel-reducible multiplication on `ℚ`. -/
def qmul (a b : ℚ) : ℚ := mkRat (a.num * b.num) (a.den * b.den)

/-- Kernel-reducible division on `ℚ` (`qdiv a 0 = 0`, as in Lean's `ℚ`). -/
def qdiv (a b : ℚ) : ℚ := Rat.divInt (a.num * b.den) (a.den * b.num)

theorem qadd_eq (a b : ℚ) : qadd a b = a + b := (Rat.add_def' a b).symm

theorem qsub_eq (a b : ℚ) : qsub a b = a - b := (Rat.sub_def' a b).symm

theorem qmul_eq (a b : ℚ) : qmul a b = a * b := by
  rw [qmul, Rat.mul_def, Rat.normalize_eq_mkRat]

theorem qdiv_eq (a b : ℚ) : qdiv a b = a / b := by
  by_cases hb : b.num = 0
  · have hb0 : b = 0 := by
      rwa [Rat.num_eq_zero] at hb
    simp [qdiv, hb, hb0, Rat.divInt_zero]
  · rw [qdiv, Rat.div_def]
    conv_rhs => rw [← Rat.divInt_self a, ← Rat.divInt_self b]
    rw [Rat.inv_divInt, Rat.divInt_mul_divInt _ _ (by exact_mod_cast a.den_nz) hb]

/-- Sum of a list of rationals, as Python's `sum` (left fold from `0`). -/
def qsum (l : List ℚ) : ℚ := l.foldl qadd (mkRat 0 1)

theorem qzero_eq : mkRat 0 1 = (0 : ℚ) := by
  simp [Rat.mkRat_eq_divInt]

theorem mkRat_two : mkRat 2 1 = (2 : ℚ) := by
  rw [Rat.mkRat_one]
  norm_num

theorem qsum_foldl (a : ℚ) (l : List ℚ) : l.foldl qadd a = a + l.sum := by
  induction l generalizing a with
  | nil => simp
  | cons x xs ih => simp [List.foldl_cons, ih, qadd_eq, add_assoc]

theorem qsum_eq (l : List ℚ) : qsum l = l.sum := by
  rw [qsum, qsum_foldl, qzero_eq, zero_add]

/-- Floor of a rational, through integer floor-division of the (reduced)
numerator and denominator; models Python's `//` on exact values. -/
def qfloor (q : ℚ) : ℤ := Int.fdiv q.num q.den

theorem qfloor_eq (q : ℚ) : qfloor q = ⌊q⌋ := by
  rw [qfloor, Rat.floor_def, Int.fdiv_eq_ediv _ (by positivity)]

/-! ### Association lists

Python `dict`s (insertion-ordered, unique keys) are modelled as association
lists.  `aset` is `d[k] = v` (update in place, else append), `aerase` is
`del d[k]`, `amem` is `k in d`. -/

/-- `d[k] = v` on a Python dict: replace in place, otherwise append. -/
def aset {β : Type} : List (String × β) → String → β → List (String × β)
  | [], k, v => [(k, v)]
  | (k', v') :: t, k, v =>
    if k' = k then (k, v) :: t else (k', v') :: aset t k v

/-- `del d[k]` on a Python dict (no error if the key is absent; the source
only deletes keys it has just tested for membership). -/
def aerase {β : Type} : List (String × β) → String → List (String × β)
  | [], _ => []
  | (k', v') :: t, k => if k' = k then t else (k', v') :: aerase t k

/-- `k in d` on a Python dict. -/
def amem {β : Type} (k : String) (d : List (String × β)) : Bool :=
  (d.lookup k).isSome

/-- `d.get(k)` returning `none` when absent. -/
def aget {β : Type} (d : List (String × β)) (k : String) : Option β :=
  d.lookup k

/-! ### Configuration constants (`backend/core/config.py`) -/

/-- `BLOCK_SUBSIDY = 50.0` -/
def BLOCK_SUBSIDY : ℚ := mkRat 50 1

/-- `HALVING_INTERVAL = 210000` -/
def HALVING_INTERVAL : ℤ := 210000

/-- `BASE_TX_SIZE = 250` -/
def BASE_TX_SIZE : ℕ := 250

/-- `MIN_FEE = 0.001` -/
def MIN_FEE : ℚ := mkRat 1 1000

/-- `DEFAULT_FEE_RATE = 0.00001` -/
def DEFAULT_FEE_RATE : ℚ := mkRat 1 100000

/-- `PRIORITY_MULTIPLIERS = {"low": 0.8, "medium": 1.0, "high": 1.5}`
(insertion order preserved, as iterated by `Transaction.is_valid`). -/
def PRIORITY_MULTIPLIERS : List (String × ℚ) :=
  [("low", mkRat 4 5), ("medium", mkRat 1 1), ("high", mkRat 3 2)]

/-- `BLOCK_SIZE_LIMIT = 1000000` -/
def BLOCK_SIZE_LIMIT : ℕ := 1000000

/-- `1e-9`, the epsilon used in the source's float comparisons. -/
def EPS9 : ℚ := mkRat 1 1000000000

/-- `0.00001`, the increment baked into the signed message format. -/
def EPS5 : ℚ := mkRat 1 100000

/-- `MINING_REWARD_INPUT = {"address": "coinbase", ...}`: the address field
is the only one the validation code reads. -/
def MINING_REWARD_INPUT_ADDRESS : String := "coinbase"

/-- `subsidy(h) = BLOCK_SUBSIDY // (2 ** (h // HALVING_INTERVAL))` where `//`
on ints is floor division and on floats is `floor` of the quotient.  The
exponent is non-negative for every height the code produces, in which case
`2 ** k` is exact. -/
def pySubsidy (h : ℤ) : ℚ :=
  let k := Int.fdiv h HALVING_INTERVAL
  let p : ℚ := if 0 ≤ k then mkRat (2 ^ k.toNat) 1 else mkRat 1 (2 ^ (-k).toNat)
  mkRat (qfloor (qdiv BLOCK_SUBSIDY p)) 1

/-- ASCII lowercasing of a character; models Python's `str.lower` on the
hex-digit/`0x` addresses this code compares. -/
def pyLowerChar (c : Char) : Char :=
  if 'A' ≤ c ∧ c ≤ 'Z' then Char.ofNat (c.toNat + 32) else c

/-- ASCII lowercasing of a string (`str.lower`). -/
def pyLower (s : String) : String := String.mk (s.data.map pyLowerChar)

/-- Lexicographic comparison of code-point lists (Python string `<=`). -/
def charListLe : List Char → List Char → Bool
  | [], _ => true
  | _ :: _, [] => false
  | a :: as, b :: bs =>
    if a.toNat < b.toNat then true
    else if b.toNat < a.toNat then false
    else charListLe as bs

/-- Python string comparison `a <= b` (lexicographic on code points; agrees
with Lean's `String` order but is kernel-computable). -/
def pyStrLe (a b : String) : Bool := charListLe a.data b.data

/-- Insertion step of a stable ascending sort by `pyStrLe`. -/
def strInsert (x : String) : List String → List String
  | [] => [x]
  | y :: ys => if pyStrLe x y then x :: y :: ys else y :: strInsert x ys

/-- Python's `sorted` on a list of strings (stable ascending;
sort order on equal keys is irrelevant because equal strings are equal). -/
def strSort (l : List String) : List String := l.foldr strInsert []

/-! ### Transaction data model (`backend/models/transaction.py`)

A Python transaction-input dict is modelled by `TxInput`.  Missing string
keys are modelled as `""` and missing numeric keys as `0` (the defaults the
source supplies to `.get`); the `empty` flag models the empty dict `{}`
(which is falsy in Python, unlike every populated dict). -/

structure TxInput where
  timestamp : ℤ := 0
  amount : ℚ := mkRat 0 1
  fee : ℚ := mkRat 0 1
  fees : ℚ := mkRat 0 1
  address : String := ""
  public_key : String := ""
  signature : String := ""
  prev_tx_ids : List String := []
  coinbase_data : String := ""
  block_height : ℤ := 0
  subsidy : ℚ := mkRat 0 1
  empty : Bool := false
  deriving DecidableEq, Repr

/-- The JSON dict form of a transaction, as stored in `block.data` and
consumed by `Transaction.from_json`: keys `id`, `input`, `output`, `fee`,
`size`, `is_coinbase` (`none` models an absent key). -/
structure TxJson where
  id : String
  input : Option TxInput := none
  output : List (String × ℚ) := []
  fee : ℚ := mkRat 0 1
  size : ℤ := 0
  is_coinbase : Option Bool := none
  deriving DecidableEq, Repr

/-- Truthiness of a Python transaction-input value (`None` and `{}` are
falsy; every populated dict is truthy). -/
def inputTruthy : Option TxInput → Bool
  | none => false
  | some i => !i.empty

/-- Truthiness of an optional Python string (`None` and `""` are falsy). -/
def strTruthy : Option String → Bool
  | none => false
  | some s => s != ""

/-- The environment of opaque primitives the embedded code calls:
`hashlib.sha256(...).hexdigest()`, the various `json.dumps`/`str`
serializations (only hash inputs and lengths are observable), the f-string
float formatting `f"{x:.5f}"`, and `w3.eth.account.recover_message`
(returning `none` when the library raises). -/
structure Env where
  sha : String → String
  dumpStr : String → String
  dumpInt : ℤ → String
  dumpTxList : List TxJson → String
  dumpTxListPlain : List TxJson → String
  serTx : TxJson → String
  serGenesisTx : String
  fmt5 : ℚ → String
  recover : String → String → Option String
  lenStrIds : List String → ℕ
  lenStrInput : TxInput → ℕ
  lenStrOutput : List (String × ℚ) → ℕ

/-- A constructed `Transaction` object (the attributes set by `__init__`
that are read elsewhere in the code). -/
structure Transaction where
  id : String
  is_coinbase : Bool
  fee : ℚ
  fee_rate : ℚ
  sender_address : Option String
  public_key : Option String
  signature : Option String
  recipient : Option String
  amount : Option ℚ
  input : Option TxInput
  output : List (String × ℚ)
  size : ℕ
  deriving DecidableEq, Repr

/-- `transaction_map` of a `TransactionPool`: a dict `tx_id → Transaction`. -/
abbrev Pool : Type := List (String × Transaction)

/-- `utxo_set` of a `Blockchain`: a dict `tx_id → (dict address → amount)`. -/
abbrev UtxoSet : Type := List (String × List (String × ℚ))

/-- The part of a `Blockchain` object read by the transaction code
(`utxo_set`, via direct iteration and `calculate_balance`). -/
structure BlockchainView where
  utxo_set : UtxoSet

/-- `Blockchain.calculate_balance`: sum of all UTXO amounts paid to
`address`. -/
def Blockchain.calculate_balance (utxo : UtxoSet) (address : String) : ℚ :=
  utxo.foldl
    (fun bal kv =>
      kv.2.foldl (fun b ao => if ao.1 == address then qadd b ao.2 else b) bal)
    (mkRat 0 1)

/-- `Transaction.pending_spends(transaction_pool, address)` (static method;
the Python argument is the pool object and the source reads its
`transaction_map`).  For every pool transaction whose truthy input bears
this address, each output paid to a *different* address contributes
`amount + tx.fee`. -/
def Transaction.pending_spends (pool : Pool) (address : String) : ℚ :=
  pool.foldl
    (fun acc kv =>
      match kv.2.input with
      | some i =>
        if !i.empty && i.address == address then
          kv.2.output.foldl
            (fun a ao => if ao.1 != address then qadd a (qadd ao.2 kv.2.fee) else a)
            acc
        else acc
      | none => acc)
    (mkRat 0 1)

/-- `Transaction._calculate_size`: `max(BASE_TX_SIZE, input_size +
output_size)` where the sizes come from `len(str(...))` of the input dict,
its `prev_tx_ids`, and the output dict. -/
def Transaction.calculate_size (env : Env) (input : Option TxInput)
    (output : List (String × ℚ)) : ℕ :=
  let input_size :=
    match input with
    | some i => if !i.empty then env.lenStrIds i.prev_tx_ids * 50 + env.lenStrInput i else 0
    | none => 0
  let output_size :=
    if output != [] then
      env.lenStrOutput output + (output.foldl (fun a ao => a + ao.1.length) 0) * 20
    else 0
  max BASE_TX_SIZE (input_size + output_size)

/-- The keyword arguments of `Transaction.__init__` (with the Python
defaults).  `fresh_id` stands for the `uuid4()` the constructor would draw
and `now_ns` for `time.time_ns()`. -/
structure TxParams where
  sender_address : Option String := none
  public_key : Option String := none
  recipient : Option String := none
  amount : Option ℚ := none
  id : Option String := none
  output : Option (List (String × ℚ)) := none
  input : Option TxInput := none
  fee : ℚ := mkRat 0 1
  size : ℤ := 0
  is_coinbase : Bool := false
  fee_rate : ℚ := DEFAULT_FEE_RATE
  signature : Option String := none

/-- The character set of the constructor's signature/public-key format
check.  The source tests `all(c in "0123456789abcdefABCDEF" + "x" for c in
s.replace("0x", ""))`; since `replace` only removes the characters `0` and
`x`, both of which lie in the allowed set, the test is equivalent to every
character of the original string lying in the set. -/
def hexOrX (c : Char) : Bool :=
  "0123456789abcdefABCDEF".data.contains c || c == 'x'

/-- The UTXO scan of `Transaction._create_input` (the `if self.blockchain:`
loop): collect `(tx_id, amount)` for every UTXO output paid to the sender,
rejecting non-positive amounts, and accumulate their total. -/
def Transaction.select_utxos (sender : String) (utxo : UtxoSet) :
    Except String (List (String × ℚ) × ℚ) :=
  utxo.foldlM
    (fun acc kv =>
      kv.2.foldlM
        (fun (acc2 : List (String × ℚ) × ℚ) ao =>
          if ao.1 == sender then
            if ao.2 ≤ mkRat 0 1 then throw "Invalid UTXO amount"
            else pure (acc2.1 ++ [(kv.1, ao.2)], qadd acc2.2 ao.2)
          else pure acc2)
        acc)
    ([], mkRat 0 1)

/-- The mempool scan of `Transaction._create_input` (the
`if self.transaction_pool:` loop): append `(tx.id, amount)` for every
output a pool transaction from the sender pays back to the sender.  The
running total is *not* updated by this loop. -/
def Transaction.select_pool_utxos (sender : String) (pool : Pool)
    (sel : List (String × ℚ)) : Except String (List (String × ℚ)) :=
  pool.foldlM
    (fun acc kv =>
      match kv.2.input with
      | some i =>
        if !i.empty && i.address == sender then
          kv.2.output.foldlM
            (fun (a : List (String × ℚ)) ao =>
              if ao.1 == sender then
                if ao.2 ≤ mkRat 0 1 then throw "Invalid transaction output amount"
                else pure (a ++ [(kv.2.id, ao.2)])
              else pure a)
            acc
        else pure acc
      | none => pure acc)
    sel

/-- The branch of `Transaction.__init__` taken when both `input` and
`output` are supplied (the deserialization path): recompute the size, read
the fee from `input.get('fees', 0.0)` (falling back to
`max(BASE_TX_SIZE * fee_rate, MIN_FEE)` when falsy), and run the
`abs(...) < 0` conservation check, which can never fire. -/
def Transaction.init_given (env : Env) (idv : String) (fee_rate : ℚ) (p : TxParams)
    (inp : TxInput) (out : List (String × ℚ)) (am : ℚ) : Except String Transaction :=
  let size := Transaction.calculate_size env (some inp) out
  let fee0 := inp.fees
  let feev :=
    if fee0 == mkRat 0 1 then
      max (qmul (mkRat (BASE_TX_SIZE : ℤ) 1) fee_rate) MIN_FEE
    else fee0
  let total_input_amount := inp.amount
  let total_output_value := qsum (out.map (·.2))
  if |qsub total_input_amount (qadd total_output_value feev)| < mkRat 0 1 then
    -- `abs(...) < 0`: this check can never fire
    .error "Input amount does not match total output plus fee"
  else
    .ok { id := idv, is_coinbase := false, fee := feev, fee_rate := fee_rate,
          sender_address := p.sender_address, public_key := p.public_key,
          signature := p.signature, recipient := p.recipient, amount := some am,
          input := some inp, output := out, size := size }

/-- The fresh-construction branch of `Transaction.__init__` (no `input` or
no `output` supplied), inlining `_create_input`.  The `AttributeError`s
raised when `transaction_pool` or `blockchain` is `None` become errors. -/
def Transaction.init_fresh (env : Env) (idv : String) (fee_rate : ℚ) (p : TxParams)
    (blockchain : Option BlockchainView) (pool : Option Pool) (am : ℚ)
    (now_ns : ℤ) : Except String Transaction :=
  if !(strTruthy p.sender_address) || !(strTruthy p.public_key) ||
      !(strTruthy p.signature) then
    .error "Sender address, public key, and signature required for non-coinbase transaction"
  else
    let sender := p.sender_address.getD ""
    let pk := p.public_key.getD ""
    let sig := p.signature.getD ""
    if !(sig.data.all hexOrX) then .error "Invalid signature format"
    else if !(pk.data.all hexOrX) then .error "Invalid public key format"
    else
      -- at this point the object has neither `input` nor `output`
      let estimated_size := Transaction.calculate_size env none []
      let feev := max (qmul (mkRat (estimated_size : ℤ) 1) fee_rate) MIN_FEE
      let required := qadd am feev
      -- `_create_input`
      match pool with
      | none => .error "AttributeError: NoneType has no attribute transaction_map"
      | some pl =>
        let pending := Transaction.pending_spends pl sender
        match blockchain with
        | none => .error "AttributeError: NoneType has no attribute calculate_balance"
        | some bv =>
          let balance := qsub (Blockchain.calculate_balance bv.utxo_set sender) pending
          if balance < required then .error "Insufficient funds"
          else
            match Transaction.select_utxos sender bv.utxo_set with
            | .error e => .error e
            | .ok st =>
              match Transaction.select_pool_utxos sender pl st.1 with
              | .error e => .error e
              | .ok sel =>
                if st.2 < required then .error "Insufficient funds"
                else if sel == [] then .error "No valid UTXOs found"
                else
                  let inp : TxInput :=
                    { timestamp := now_ns, amount := balance, fee := feev,
                      address := sender, public_key := pk, signature := sig,
                      prev_tx_ids := sel.map (·.1) }
                  let change := qsub balance required
                  if change < mkRat (-1) 1000000000 then
                    .error "Calculated change amount is negative"
                  else
                    let change := max (mkRat 0 1) change
                    let out0 := [(p.recipient.getD "", am)]
                    match (if EPS9 < change && sender != "" then
                             .ok (aset out0 sender change)
                           else if EPS9 < change && sender == "" then
                             .error "Cannot create change output without sender address"
                           else
                             .ok out0 : Except String (List (String × ℚ))) with
                    | .error e => .error e
                    | .ok outv =>
                      .ok { id := idv, is_coinbase := false, fee := feev,
                            fee_rate := fee_rate, sender_address := p.sender_address,
                            public_key := p.public_key, signature := p.signature,
                            recipient := p.recipient, amount := some am,
                            input := some inp, output := outv,
                            size := Transaction.calculate_size env (some inp) outv }

/-- `Transaction.__init__`.  Python exceptions (including the
`AttributeError`s raised by `_create_input` when `transaction_pool` or
`blockchain` is `None`) are `Except.error`. -/
def Transaction.init (env : Env) (p : TxParams) (blockchain : Option BlockchainView)
    (pool : Option Pool) (fresh_id : String) (now_ns : ℤ) : Except String Transaction :=
  let genId := if p.is_coinbase then "coinbase_" ++ fresh_id else fresh_id
  let idv := match p.id with
    | some s => if s != "" then s else genId
    | none => genId
  let fee_rate :=
    if p.is_coinbase then mkRat 0 1
    else max p.fee_rate (qdiv MIN_FEE (mkRat (BASE_TX_SIZE : ℤ) 1))
  if p.is_coinbase then
    match p.output, p.input with
    | some out, some inp =>
      let outv := if out != [] then out else []
      .ok { id := idv, is_coinbase := true, fee := mkRat 0 1, fee_rate := fee_rate,
            sender_address := p.sender_address, public_key := p.public_key,
            signature := p.signature, recipient := p.recipient, amount := p.amount,
            input := some inp, output := outv,
            size := Transaction.calculate_size env (some inp) outv }
    | _, _ => .error "Coinbase transaction requires output and input"
  else
    if !(strTruthy p.recipient) then
      .error "Invalid transaction parameters: recipient and positive amount required"
    else
      match p.amount with
      | none => .error "Invalid transaction parameters: recipient and positive amount required"
      | some am =>
        if am ≤ mkRat 0 1 then
          .error "Invalid transaction parameters: recipient and positive amount required"
        else
          match p.input, p.output with
          | some inp, some out => Transaction.init_given env idv fee_rate p inp out am
          | some _, none => Transaction.init_fresh env idv fee_rate p blockchain pool am now_ns
          | none, some _ => Transaction.init_fresh env idv fee_rate p blockchain pool am now_ns
          | none, none => Transaction.init_fresh env idv fee_rate p blockchain pool am now_ns

/-- `Transaction.from_json`.  A non-dict or missing `input` becomes the
empty dict; output values are already numeric in the model (the `float`
conversion cannot fail); `is_coinbase` defaults to
`input.get('address') == 'coinbase'`. -/
def Transaction.from_json (env : Env) (d : TxJson) (fresh_id : String) (now_ns : ℤ) :
    Except String Transaction :=
  let inputD : TxInput := match d.input with
    | some i => i
    | none => { empty := true }
  let is_cb : Bool := match d.is_coinbase with
    | some b => b
    | none => inputD.address == "coinbase"
  let sender := if is_cb then none else some inputD.address
  let pk := if is_cb then none else some inputD.public_key
  let sig := if is_cb then none else some inputD.signature
  let rcpam : Option String × Option ℚ :=
    if !is_cb && d.output != [] then
      if strTruthy sender then
        match d.output.find? (fun ao => ao.1 != inputD.address) with
        | some ao => (some ao.1, some ao.2)
        | none =>
          match d.output with
          | ao :: _ => (some ao.1, some ao.2)
          | [] => (none, none)
      else
        match d.output with
        | ao :: _ => (some ao.1, some ao.2)
        | [] => (none, none)
    else (none, none)
  Transaction.init env
    { id := some d.id, output := some d.output, input := some inputD, fee := d.fee,
      size := d.size, is_coinbase := is_cb, sender_address := sender, public_key := pk,
      signature := sig, recipient := rcpam.1, amount := rcpam.2 }
    none none fresh_id now_ns

/-- `Transaction.create_coinbase`. -/
def Transaction.create_coinbase (env : Env) (miner_address : String) (block_height : ℤ)
    (total_fees : ℚ) (fresh_id : String) (now_ns : ℤ) : Except String Transaction :=
  let subsidy := pySubsidy block_height
  let total_reward := qadd subsidy total_fees
  if total_reward ≤ mkRat 0 1 then
    .error "Total reward must be positive for coinbase transaction"
  else
    let coinbase_input : TxInput :=
      { timestamp := now_ns, address := "coinbase", public_key := "coinbase",
        signature := "coinbase", coinbase_data := "Height:" ++ toString block_height,
        block_height := block_height, subsidy := subsidy, fees := total_fees }
    if miner_address == "" then .error "Miner address is required for coinbase transaction"
    else
      Transaction.init env
        { input := some coinbase_input, output := some [(miner_address, total_reward)],
          fee := mkRat 0 1, size := (BASE_TX_SIZE : ℤ), is_coinbase := true }
        none none fresh_id now_ns

/-- The `if blockchain:` section of `Transaction.is_valid` (lines 208-230):
UTXO existence and ownership of each `prev_tx_id`, the spent-total
accumulation, and the (vacuous) `abs(...) < 0` consistency check.  When
`transaction_pool` is `None` the membership test on line 219 raises
`TypeError`, modelled as an error. -/
def Transaction.is_valid_utxo_checks (i : TxInput) (bv : BlockchainView)
    (pool : Option Pool) : Except String Unit := do
  i.prev_tx_ids.forM (fun tx_id =>
    if !(amem tx_id bv.utxo_set) then
      if (match pool with
          | some pl => pl.any (fun kv => kv.2.id == tx_id)
          | none => false) then pure ()
      else throw ("Unknown UTXO: " ++ tx_id)
    else if !(amem i.address ((aget bv.utxo_set tx_id).getD [])) then
      throw ("UTXO does not belong to sender: " ++ tx_id)
    else pure ())
  let total ← i.prev_tx_ids.foldlM
    (fun (acc : ℚ) tx_id =>
      match pool with
      | none => throw "TypeError: argument of type NoneType is not iterable"
      | some pl =>
        if amem tx_id pl then pure acc
        else if amem tx_id bv.utxo_set &&
            amem i.address ((aget bv.utxo_set tx_id).getD []) then
          pure (qadd acc ((aget ((aget bv.utxo_set tx_id).getD []) i.address).getD (mkRat 0 1)))
        else throw "Consistency error: UTXO for sender not found during total input verification")
    (mkRat 0 1)
  match pool with
  | none => throw "AttributeError: NoneType has no attribute transaction_map"
  | some pl =>
    let actual := qsub total (Transaction.pending_spends pl i.address)
    if |qsub i.amount actual| < mkRat 0 1 then
      -- `abs(...) < 0`: this check can never fire
      throw "Input amount does not match the sum of spent UTXO amounts"
    else pure ()

/-- `Transaction.is_valid` (static method). -/
def Transaction.is_valid (env : Env) (t : Transaction) (blockchain : Option BlockchainView)
    (pool : Option Pool) : Except String Bool :=
  if t.is_coinbase then
    match t.input with
    | none => .error "AttributeError: NoneType has no attribute get"
    | some i =>
      let subsidy := pySubsidy i.block_height
      let total_fees := i.fees
      if t.output.length != 1 then .error "Invalid coinbase transaction output"
      else
        let v := (t.output.headD ("", mkRat 0 1)).2
        if v ≤ mkRat 0 1 then .error "Invalid coinbase transaction output"
        else if EPS9 < |qsub v (qadd subsidy total_fees)| then
          .error "Coinbase output does not match subsidy plus fees"
        else .ok true
  else
    if (match t.input with
        | some i => !i.empty && i.address == MINING_REWARD_INPUT_ADDRESS
        | none => false) then
      .error "Mining reward should only be part of coinbase transaction"
    else if !(inputTruthy t.input) || t.output == [] then
      .error "Transaction must have input and output"
    else
      match t.input with
      | none => .error "Transaction must have input and output"
      | some i =>
        if i.address == "" || i.public_key == "" || i.signature == "" then
          .error "Sender address, public key, and signature required for non-coinbase transaction input"
        else
          let output_total_excluding_change :=
            qsum ((t.output.filter (fun ao => ao.1 != i.address)).map (·.2))
          let input_amount := i.amount
          let transaction_fee := t.fee
          if output_total_excluding_change < mkRat 0 1 || input_amount < mkRat 0 1 ||
              transaction_fee < MIN_FEE then
            .error "Invalid values: output excluding change, input, or fee"
          else
            let total_output_value := qsum (t.output.map (·.2))
            if |qsub input_amount (qadd total_output_value transaction_fee)| < mkRat 0 1 then
              -- `abs(...) < 0`: this check can never fire
              .error "Input amount does not match total output plus fee"
            else
              if i.prev_tx_ids == [] then .error "Transaction input missing prev_tx_ids"
              else
                let utxoCheck : Except String Unit :=
                  match blockchain with
                  | some bv => Transaction.is_valid_utxo_checks i bv pool
                  | none => pure ()
                match utxoCheck with
                | .error e => .error e
                | .ok _ =>
                  let priority :=
                    ((PRIORITY_MULTIPLIERS.find?
                        (fun pm => |qsub t.fee_rate (qmul DEFAULT_FEE_RATE pm.2)| < EPS9)).map
                      (·.1)).getD "medium"
                  match t.output.find?
                      (fun ao => (inputTruthy t.input && ao.1 != i.address) ||
                        !(inputTruthy t.input)) with
                  | none => .error "Could not determine recipient or amount for signature verification"
                  | some ao =>
                    let msg := ao.1 ++ ":" ++ env.fmt5 (qadd ao.2 EPS5) ++ ":" ++ priority ++
                      ":" ++ (match t.public_key with | some s => s | none => "None")
                    match env.recover msg i.signature with
                    | none => .error "Signature verification failed"
                    | some recovered =>
                      if pyLower recovered != pyLower i.address then
                        .error "Signature verification failed: Invalid signature"
                      else .ok true

/-! ### Transaction pool (`backend/models/transaction_pool.py`) -/

/-- `transaction.input.get('timestamp')` of a pool entry (an absent key is
modelled as 0; every transaction the pool accepts carries a truthy input). -/
def txTimestamp (t : Transaction) : ℤ :=
  match t.input with
  | some i => i.timestamp
  | none => 0

/-- `TransactionPool.set_transaction`: validate, then insert; when the id is
already present, replace only if the incoming input timestamp is strictly
greater. -/
def TransactionPool.set_transaction (env : Env) (pool : Pool) (t : Transaction) :
    Except String Pool := do
  let _ ← Transaction.is_valid env t none none
  match aget pool t.id with
  | some old =>
    if txTimestamp t > txTimestamp old then
      pure (aset pool t.id t)
    else pure pool
  | none => pure (aset pool t.id t)

/-- `TransactionPool.pending_spends(transaction_map, address)` (static
method): sums, over transactions whose `input.get('address')` equals the
address, the output amounts paid to other addresses — without the fee.  A
`None` input raises `AttributeError`. -/
def TransactionPool.pending_spends (transaction_map : Pool) (address : String) :
    Except String ℚ :=
  transaction_map.foldlM
    (fun (acc : ℚ) kv =>
      match kv.2.input with
      | none => throw "AttributeError: NoneType has no attribute get"
      | some i =>
        if i.address == address then
          pure (kv.2.output.foldl
            (fun a ao => if ao.1 != address then qadd a ao.2 else a) acc)
        else pure acc)
    (mkRat 0 1)

/-- The sort key of `TransactionPool.get_priority_transactions`:
`tx.fee / tx.size`. -/
def TransactionPool.priority_key (t : Transaction) : ℚ :=
  qdiv t.fee (mkRat (t.size : ℤ) 1)

/-- `TransactionPool.get_priority_transactions`: the pool's transactions
sorted stably by descending `fee / size`. -/
def TransactionPool.get_priority_transactions (pool : Pool) : List Transaction :=
  (pool.map (·.2)).mergeSort
    (fun a b => TransactionPool.priority_key b ≤ TransactionPool.priority_key a)

/-! ### Canonical hashing (`backend/utils/cryptohash.py`,
`backend/utils/hex_to_binary.py`) -/

/-- An argument passed to `crypto_hash` somewhere in the code: a string, an
int, or a block's transaction-dict list. -/
inductive HArg where
  | s (v : String)
  | i (n : ℤ)
  | txs (l : List TxJson)
  deriving DecidableEq

/-- `json.dumps(arg, sort_keys=True, separators=(',', ':'), default=str)`
for a single `crypto_hash` argument. -/
def dumpArg (env : Env) : HArg → String
  | .s v => env.dumpStr v
  | .i n => env.dumpInt n
  | .txs l => env.dumpTxList l

/-- `crypto_hash(*args)`: serialize each argument, sort the serialized
strings lexicographically, concatenate, and take the SHA-256 hex digest. -/
def crypto_hash (env : Env) (args : List HArg) : String :=
  env.sha (String.join (strSort (args.map (dumpArg env))))

/-- `HEX_TO_BINARY_CONVERSION_TABLE[digit]`.  A character outside the table
raises `KeyError` in Python; it is modelled as `""`, which can only make the
proof-of-work comparison fail, as the exception would. -/
def hexDigitBits (c : Char) : String :=
  if c = '0' then "0000" else if c = '1' then "0001"
  else if c = '2' then "0010" else if c = '3' then "0011"
  else if c = '4' then "0100" else if c = '5' then "0101"
  else if c = '6' then "0110" else if c = '7' then "0111"
  else if c = '8' then "1000" else if c = '9' then "1001"
  else if c = 'a' then "1010" else if c = 'b' then "1011"
  else if c = 'c' then "1100" else if c = 'd' then "1101"
  else if c = 'e' then "1110" else if c = 'f' then "1111"
  else ""

/-- `hex_to_binary`. -/
def hex_to_binary (s : String) : String :=
  String.join (s.data.map hexDigitBits)

/-- Python string slicing `s[:n]` for a non-negative slice bound. -/
def pyTake (s : String) (n : ℕ) : String := String.mk (s.data.take n)

/-! ### Blocks (`backend/models/block.py`) -/

/-- One pass of the `while len(hashes) > 1` loop of
`Block.calculate_merkle_root`: hash the concatenation of each adjacent pair;
a lone final hash is appended unchanged. -/
def merklePairPass (env : Env) : List String → List String
  | a :: b :: rest => crypto_hash env [.s (a ++ b)] :: merklePairPass env rest
  | [a] => [a]
  | [] => []

theorem merklePairPass_length (env : Env) (l : List String) :
    (merklePairPass env l).length = (l.length + 1) / 2 := by
  induction l using merklePairPass.induct env with
  | case1 a b rest ih =>
    simp only [merklePairPass, List.length_cons, ih]
    omega
  | case2 a => simp [merklePairPass]
  | case3 => rfl

/-- The `while len(hashes) > 1` loop of `Block.calculate_merkle_root`,
with an explicit fuel argument so that the definition is structurally
recursive (and hence kernel-computable); `merkleLoop` supplies fuel
`hs.length`, which exceeds the number of halving passes. -/
def merkleLoopGo (env : Env) : ℕ → List String → String
  | 0, hs => hs.headD ""
  | fuel + 1, hs =>
    if hs.length ≤ 1 then hs.headD ""
    else merkleLoopGo env fuel (merklePairPass env hs)

/-- The `while len(hashes) > 1` loop of `Block.calculate_merkle_root`. -/
def merkleLoop (env : Env) (hs : List String) : String :=
  merkleLoopGo env hs.length hs

/-- `Block.calculate_merkle_root`: leaf hashes are
`crypto_hash(json.dumps(tx, sort_keys=True, separators=(',', ':'), ...))`;
an empty transaction list hashes to `crypto_hash('')`. -/
def Block.calculate_merkle_root (env : Env) (data : List TxJson) : String :=
  if data == [] then crypto_hash env [.s ""]
  else merkleLoop env (data.map (fun t => crypto_hash env [.s (env.serTx t)]))

/-- A constructed `Block` object. -/
structure Block where
  timestamp : ℤ
  last_hash : String
  hash : String
  data : List TxJson
  difficulty : ℤ
  nonce : ℤ
  height : ℤ
  version : ℤ
  merkle_root : String
  tx_count : ℤ
  deriving DecidableEq, Repr

/-- `Block.__init__` followed by `Block.validate_block` (which every
constructor call runs).  The supplied difficulty is clamped to
`max(1, difficulty)` before any validation; the `isinstance` checks hold by
typing. -/
def Block.init (env : Env) (timestamp : ℤ) (last_hash hash : String) (data : List TxJson)
    (difficulty : ℤ) (nonce : ℤ) (height : Option ℤ) (version : Option ℤ)
    (merkle_root : Option String) (tx_count : Option ℤ) : Except String Block :=
  let b : Block :=
    { timestamp := timestamp, last_hash := last_hash, hash := hash, data := data,
      difficulty := max 1 difficulty, nonce := nonce,
      height := height.getD 0, version := version.getD 1,
      merkle_root := match merkle_root with
        | some m => m
        | none => Block.calculate_merkle_root env data,
      tx_count := tx_count.getD (data.length : ℤ) }
  if b.height < 0 then .error "Block height cannot be negative"
  else if b.difficulty < 1 then .error "Block difficulty cannot be less than 1"
  else if b.tx_count != (data.length : ℤ) then
    .error "Transaction count does not match data length"
  else if b.hash.length != 64 then
    .error "Block hash must be a 64-character hexadecimal string"
  else if b.last_hash.length != 64 then
    .error "Last block hash must be a 64-character hexadecimal string"
  else if b.merkle_root.length != 64 then
    .error "Merkle root must be a 64-character hexadecimal string"
  else if b.nonce < 0 then .error "Nonce must be a non-negative integer"
  else if b.timestamp < 0 then .error "Timestamp must be a non-negative integer"
  else if b.version < 1 then .error "Version must be a positive integer"
  else if b.tx_count < 0 then .error "Transaction count must be a non-negative integer"
  else .ok b

/-- The JSON dict form of a block, as consumed by `Block.from_json`
(`none` models an absent key, for which the source substitutes a default). -/
structure BlockJson where
  timestamp : ℤ
  last_hash : String
  hash : String
  data : List TxJson
  difficulty : ℤ
  nonce : ℤ
  height : Option ℤ := none
  version : Option ℤ := none
  merkle_root : Option String := none
  tx_count : Option ℤ := none
  deriving DecidableEq, Repr

/-- `Block.from_json`. -/
def Block.from_json (env : Env) (j : BlockJson) : Except String Block :=
  Block.init env j.timestamp j.last_hash j.hash j.data j.difficulty j.nonce
    (some (j.height.getD 0)) (some (j.version.getD 1))
    (some (j.merkle_root.getD (String.mk (List.replicate 64 '0'))))
    (some (j.tx_count.getD (j.data.length : ℤ)))

/-- The `crypto_hash` call reconstructing a block's header hash (the same
argument list is used by `mine_block` and `is_valid_block`). -/
def Block.header_hash (env : Env) (b : Block) : String :=
  crypto_hash env
    [.i b.timestamp, .s b.last_hash, .txs b.data, .i b.difficulty, .i b.nonce,
     .i b.height, .i b.version, .s b.merkle_root, .i b.tx_count]

/-- The per-transaction scan of `Block.is_valid_block`: deserialize and
validate every transaction, count coinbases (rejecting a second one),
accumulate non-coinbase fees, and remember the coinbase transaction. -/
def Block.scan_transactions (env : Env) (data : List TxJson) :
    Except String (ℕ × ℚ × Option Transaction) :=
  data.foldlM
    (fun (st : ℕ × ℚ × Option Transaction) tj => do
      let tx ← Transaction.from_json env tj "" 0
      let _ ← Transaction.is_valid env tx none none
      if tx.is_coinbase then
        if st.1 + 1 > 1 then throw "Multiple coinbase transactions"
        else pure (st.1 + 1, st.2.1, some tx)
      else pure (st.1, qadd st.2.1 tx.fee, st.2.2))
    (0, mkRat 0 1, none)

/-- The parent-independent tail of `Block.is_valid_block`: Merkle-root
recomputation, serialized-size limit, header-hash reconstruction, and the
per-transaction scan with the coinbase checks. -/
def Block.is_valid_block_rest (env : Env) (block : Block) : Except String Unit :=
  if block.merkle_root != Block.calculate_merkle_root env block.data then
    .error "Invalid Merkle root"
  else if (env.dumpTxListPlain block.data).utf8ByteSize > BLOCK_SIZE_LIMIT then
    .error "Block data exceeds size limit"
  else if block.hash != Block.header_hash env block then
    .error "Block hash mismatch"
  else
    match Block.scan_transactions env block.data with
    | .error e => .error e
    | .ok (cnt, fees, ctx) =>
      let cbCheck : Except String Unit :=
        match ctx with
        | some tx =>
          let subsidy := pySubsidy block.height
          let total_output := qsum (tx.output.map (·.2))
          if total_output > qadd subsidy fees then
            .error "Invalid coinbase output: exceeds subsidy plus fees"
          else .ok ()
        | none => .ok ()
      match cbCheck with
      | .error e => .error e
      | .ok _ =>
        if cnt == 0 && block.height > 0 then .error "Missing coinbase transaction"
        else .ok ()

/-- `Block.is_valid_block(last_block, block)`; `now_ns` models the
`time.time_ns()` it reads. -/
def Block.is_valid_block (env : Env) (now_ns : ℤ) (last_block block : Block) :
    Except String Unit :=
  if block.last_hash != last_block.hash then .error "Last hash mismatch"
  else if pyTake (hex_to_binary block.hash) block.difficulty.toNat !=
      String.mk (List.replicate block.difficulty.toNat '0') then
    .error "Proof of work requirement not met"
  else if (block.difficulty : ℚ) > qmul (last_block.difficulty : ℚ) (mkRat 2 1) ||
      (block.difficulty : ℚ) < qdiv (last_block.difficulty : ℚ) (mkRat 2 1) then
    .error "Difficulty adjustment exceeds 5 percent of last block difficulty"
  else if block.timestamp ≤ last_block.timestamp then
    .error "Block timestamp must be greater than last block timestamp"
  else if block.timestamp > now_ns then
    .error "Block timestamp cannot be in the future"
  else if block.height != last_block.height + 1 then
    .error "Block height must be one greater than last block height"
  else Block.is_valid_block_rest env block

/-! ### Blockchain (`backend/models/blockchain.py`) -/

/-- The state of a `Blockchain` object that `replace_chain` snapshots and
swaps: `chain`, `utxo_set`, `current_height`. -/
structure BlockchainSt where
  chain : List Block
  utxo_set : UtxoSet
  current_height : ℤ
  deriving DecidableEq, Repr

/-- The transaction dict of `GENESIS_DATA`. -/
def GENESIS_TX : TxJson :=
  { id := "genesis_initial_tx",
    input := some
      { address := "coinbase", block_height := 0, coinbase_data := "Initial funding",
        fees := mkRat 0 1, public_key := "coinbase", signature := "coinbase",
        subsidy := mkRat 50 1, timestamp := 1746707304053502800 },
    output := [("0xb169392F5D2EbC032cF6afc4645159eE2033C395", mkRat 50 1)],
    is_coinbase := some true, fee := mkRat 0 1, size := 250 }

/-- `GENESIS_DATA["last_hash"]`. -/
def GENESIS_LAST_HASH : String :=
  "d89f504b7499128eb40c973e0b5a7ec84e54c65449ae5da894b3dec0b3e2858a"

/-- `GENESIS_DATA["merkle_root"] = crypto_hash(json.dumps(tx, sort_keys=True))`
(module-initialization code; note the default separators, hence the
dedicated `serGenesisTx`). -/
def genesis_merkle_root (env : Env) : String := crypto_hash env [.s env.serGenesisTx]

/-- `GENESIS_DATA["hash"]` (module-initialization `crypto_hash` call). -/
def genesis_hash (env : Env) : String :=
  crypto_hash env
    [.i 1746707304053502800, .s GENESIS_LAST_HASH, .txs [GENESIS_TX], .i 3, .i 0,
     .i 0, .i 1, .s (genesis_merkle_root env), .i 1]

/-- `Block.genesis()` as a value (the constructor's validation, which always
passes for the real SHA-256, is not re-modelled here; only the field values
are observable to `is_valid_chain`). -/
def Block.genesis (env : Env) : Block :=
  { timestamp := 1746707304053502800, last_hash := GENESIS_LAST_HASH,
    hash := genesis_hash env, data := [GENESIS_TX], difficulty := 3, nonce := 0,
    height := 0, version := 1, merkle_root := genesis_merkle_root env, tx_count := 1 }

/-- Equality of `Block.to_json()` dicts (the genesis comparison of
`is_valid_chain`); `to_json` emits `len(data)` for `tx_count`. -/
def Block.to_json_eq (a b : Block) : Bool :=
  a.timestamp == b.timestamp && a.last_hash == b.last_hash && a.hash == b.hash &&
  a.data == b.data && a.difficulty == b.difficulty && a.nonce == b.nonce &&
  a.height == b.height && a.version == b.version && a.merkle_root == b.merkle_root &&
  a.data.length == b.data.length

/-- The per-transaction loop of `Blockchain.is_valid_chain` for one block:
deserialize, validate (mempool snapshot only for the last block), track the
coinbase flag/reward, accumulate fees, and consume UTXO entries in a local
view.  State: `(utxo_set, has_coinbase, block_total_fees, coinbase_reward)`.
Any exception is re-raised as a block-level validation failure. -/
def Blockchain.block_tx_scan (env : Env) (block_height : ℤ) (pool_i : Option Pool)
    (utxo0 : UtxoSet) (data : List TxJson) :
    Except String (UtxoSet × Bool × ℚ × ℚ) :=
  data.foldlM
    (fun (st : UtxoSet × Bool × ℚ × ℚ) tj =>
      let inner : Except String (UtxoSet × Bool × ℚ × ℚ) := do
        let (utxo, has_coinbase, fees, reward) := st
        let tx ← Transaction.from_json env tj "" 0
        let _ ← Transaction.is_valid env tx none pool_i
        if tx.is_coinbase then
          if has_coinbase then throw "Multiple coinbase transactions"
          else if tx.output == [] then throw "Invalid coinbase transaction output format"
          else pure (utxo, true, fees, (tx.output.headD ("", mkRat 0 1)).2)
        else
          let fees := qadd fees tx.fee
          match tx.input with
          | none => throw "Invalid input data format for non-coinbase transaction"
          | some i =>
            -- key-presence checks (`'address' in ...`, `'prev_tx_ids' in ...`);
            -- absent keys are modelled by the defaults "" and []
            if i.address == "" || i.prev_tx_ids == [] then
              throw "Invalid input data format for non-coinbase transaction"
            else do
              let utxo ← i.prev_tx_ids.foldlM
                (fun (u : UtxoSet) ptid =>
                  if !(amem ptid u) then throw ("Invalid input for tx: UTXO not found: " ++ ptid)
                  else if !(amem i.address ((aget u ptid).getD [])) then
                    throw ("UTXO does not belong to sender: " ++ ptid)
                  else
                    let inner' := aerase ((aget u ptid).getD []) i.address
                    if inner' == [] then pure (aerase u ptid)
                    else pure (aset u ptid inner'))
                utxo
              if has_coinbase then
                let expected := qadd (pySubsidy block_height) fees
                if |qsub reward expected| < mkRat 0 1 then
                  -- `abs(...) < 0`: this check can never fire
                  throw "Invalid coinbase reward"
                else pure (utxo, has_coinbase, fees, reward)
              else pure (utxo, has_coinbase, fees, reward)
      match inner with
      | .ok st' => .ok st'
      | .error e => .error ("Transaction validation failed in block: " ++ e))
    (utxo0, false, mkRat 0 1, mkRat 0 1)

/-- The indexed block loop of `Blockchain.is_valid_chain`: validate each
block against its predecessor, check contiguous heights, run the
per-transaction scan, require a coinbase beyond genesis, then record every
transaction's outputs into the UTXO view. -/
def Blockchain.validate_blocks (env : Env) (now_ns : ℤ) (pool : Option Pool)
    (lastIdx : ℕ) : ℕ → Option Block → ℤ → UtxoSet → List Block → Except String Unit
  | _, _, _, _, [] => .ok ()
  | i, prev, expected, utxo, block :: rest => do
    (match prev with
     | some pb => Block.is_valid_block env now_ns pb block
     | none => pure ())
    if block.height != expected then throw "Incorrect height at block"
    else do
      let pool_i := if i == lastIdx then pool else none
      let (utxo1, has_coinbase, _, _) ←
        Blockchain.block_tx_scan env block.height pool_i utxo block.data
      if !has_coinbase && i > 0 then throw "Missing coinbase transaction"
      else do
        let utxo2 ← block.data.foldlM
          (fun (u : UtxoSet) tj => do
            let tx ← Transaction.from_json env tj "" 0
            if tx.output != [] then pure (aset u tx.id tx.output) else pure u)
          utxo1
        Blockchain.validate_blocks env now_ns pool lastIdx (i + 1) (some block)
          (expected + 1) utxo2 rest

/-- `Blockchain.is_valid_chain(chain, transaction_pool)` (static method);
`now_ns` models the `time.time_ns()` read inside `Block.is_valid_block`. -/
def Blockchain.is_valid_chain (env : Env) (now_ns : ℤ) (chain : List Block)
    (pool : Option Pool) : Except String Unit :=
  match chain with
  | [] => .error "Invalid genesis block"
  | g :: _ =>
    if !(Block.to_json_eq g (Block.genesis env)) then .error "Invalid genesis block"
    else Blockchain.validate_blocks env now_ns pool (chain.length - 1) 0 none 0 [] chain

/-- `Blockchain.rebuild_utxo_set`: replay every transaction of the candidate
chain against a fresh UTXO map; any failure (deserialization, validation,
missing UTXO) aborts the rebuild. -/
def Blockchain.rebuild_utxo_set (env : Env) (chain : List Block) :
    Except String UtxoSet :=
  chain.foldlM
    (fun (temp0 : UtxoSet) block =>
      block.data.foldlM
        (fun (temp : UtxoSet) tj =>
          let inner : Except String UtxoSet := do
            let tx ← Transaction.from_json env tj "" 0
            let _ ← Transaction.is_valid env tx none none
            let temp2 ←
              if !tx.is_coinbase then
                match tx.input with
                | none => throw "Transaction is missing required input data structure during rebuild"
                | some i =>
                  if i.address == "" || i.prev_tx_ids == [] then
                    throw "Invalid transaction input format"
                  else
                    i.prev_tx_ids.foldlM
                      (fun (u : UtxoSet) ptid =>
                        if amem ptid u && amem i.address ((aget u ptid).getD []) then
                          let inner' := aerase ((aget u ptid).getD []) i.address
                          if inner' == [] then pure (aerase u ptid)
                          else pure (aset u ptid inner')
                        else throw ("Invalid transaction input: UTXO not found or already spent during rebuild: " ++ ptid))
                      temp
              else pure temp
            if tx.output != [] then pure (aset temp2 tx.id tx.output) else pure temp2
          match inner with
          | .ok t2 => .ok t2
          | .error e => .error ("Failed to rebuild UTXO set for chain: Transaction invalid: " ++ e))
        temp0)
    []

/-- The body of the `try:` block of `Blockchain.replace_chain`: length
check, full-chain validation, UTXO rebuild. -/
def Blockchain.replace_chain_body (env : Env) (now_ns : ℤ) (st : BlockchainSt)
    (chain : List Block) (pool : Option Pool) : Except String UtxoSet := do
  if chain.length ≤ st.chain.length then throw "New chain must be longer"
  let _ ← Blockchain.is_valid_chain env now_ns chain pool
  Blockchain.rebuild_utxo_set env chain

/-- `Blockchain.replace_chain`: snapshot `chain`/`utxo_set`/`current_height`,
run the length check, full-chain validation and UTXO rebuild, then either
swap in the candidate state or restore the snapshot and re-raise. -/
def Blockchain.replace_chain (env : Env) (now_ns : ℤ) (st : BlockchainSt)
    (chain : List Block) (pool : Option Pool) : BlockchainSt × Except String Unit :=
  let old_chain := st.chain
  let old_utxo_set := st.utxo_set
  let old_height := st.current_height
  match Blockchain.replace_chain_body env now_ns st chain pool with
  | .ok new_utxo_set =>
    ({ chain := chain, utxo_set := new_utxo_set,
       current_height := (chain.length : ℤ) - 1 }, .ok ())
  | .error e =>
    ({ chain := old_chain, utxo_set := old_utxo_set, current_height := old_height },
     .error ("Chain replacement failed: " ++ e))

/-! ### Concrete instances used by witnesses and counterexamples -/

/-- A 64-character string of zeros (a hex digest whose binary expansion is
all zero bits, so it meets any proof-of-work requirement). -/
def zeros64 : String := String.mk (List.replicate 64 '0')

/-- A concrete environment: the constant digest `zeros64` (a legitimate
abstraction point — the claims under test do not depend on the digest
values), identity/empty serializers, and a signature recoverer that returns
the fixed address `"0xabc"`. -/
def env0 : Env :=
  { sha := fun _ => zeros64
    dumpStr := fun s => s
    dumpInt := fun _ => ""
    dumpTxList := fun _ => ""
    dumpTxListPlain := fun _ => ""
    serTx := fun _ => ""
    serGenesisTx := ""
    fmt5 := fun _ => ""
    recover := fun _ _ => some "0xabc"
    lenStrIds := fun _ => 0
    lenStrInput := fun _ => 0
    lenStrOutput := fun _ => 0 }

/-! ### General lemmas about the embedding -/

theorem aget_aset_self {β : Type} (l : List (String × β)) (k : String) (v : β) :
    aget (aset l k v) k = some v := by
  induction l with
  | nil => simp [aset, aget, List.lookup]
  | cons hd tl ih =>
    obtain ⟨k', v'⟩ := hd
    by_cases h : k' = k
    · subst h
      simp [aset, aget, List.lookup]
    · rw [aset, if_neg h, aget, List.lookup]
      have hk : (k == k') = false := by
        simp [beq_iff_eq]
        exact Ne.symm h
      rw [hk]
      exact ih

theorem calculate_size_ge (env : Env) (i : Option TxInput) (o : List (String × ℚ)) :
    BASE_TX_SIZE ≤ Transaction.calculate_size env i o :=
  le_max_left _ _

theorem init_given_size_ge {env : Env} {idv : String} {fr : ℚ} {p : TxParams}
    {inp : TxInput} {out : List (String × ℚ)} {am : ℚ} {t : Transaction}
    (h : Transaction.init_given env idv fr p inp out am = .ok t) :
    BASE_TX_SIZE ≤ t.size := by
  unfold Transaction.init_given at h
  dsimp only at h
  repeat' split at h
  all_goals cases h
  all_goals (dsimp only; exact calculate_size_ge env _ _)

theorem init_fresh_size_ge {env : Env} {idv : String} {fr : ℚ} {p : TxParams}
    {bc : Option BlockchainView} {pool : Option Pool} {am : ℚ} {now : ℤ}
    {t : Transaction}
    (h : Transaction.init_fresh env idv fr p bc pool am now = .ok t) :
    BASE_TX_SIZE ≤ t.size := by
  unfold Transaction.init_fresh at h
  dsimp only at h
  repeat' split at h
  all_goals cases h
  all_goals (dsimp only; exact calculate_size_ge env _ _)

theorem init_size_ge (env : Env) (p : TxParams) (bc : Option BlockchainView)
    (pool : Option Pool) (fid : String) (now : ℤ) (t : Transaction)
    (h : Transaction.init env p bc pool fid now = .ok t) : BASE_TX_SIZE ≤ t.size := by
  unfold Transaction.init at h
  dsimp only at h
  repeat' split at h
  all_goals first
    | exact init_given_size_ge h
    | exact init_fresh_size_ge h
    | cases h
  all_goals (dsimp only; exact calculate_size_ge env _ _)

/-- C9: every path of `Transaction.__init__` that returns an object sets
`size = _calculate_size(...)`, which is at least `BASE_TX_SIZE = 250`;
`from_json` recomputes through the constructor likewise (ignoring the
supplied `size` value), so `fee / size` in `get_priority_transactions`
never divides by zero. -/
theorem transaction_size_lower_bound (env : Env) (p : TxParams)
    (bc : Option BlockchainView) (pool : Option Pool) (fid : String) (now : ℤ) :
    (∀ t, Transaction.init env p bc pool fid now = .ok t →
      BASE_TX_SIZE ≤ t.size ∧ t.size ≠ 0) ∧
    (∀ (d : TxJson) t, Transaction.from_json env d fid now = .ok t →
      BASE_TX_SIZE ≤ t.size ∧ t.size ≠ 0) := by
  have hpos : (0 : ℕ) < BASE_TX_SIZE := by norm_num [BASE_TX_SIZE]
  constructor
  · intro t h
    have := init_size_ge env p bc pool fid now t h
    exact ⟨this, by omega⟩
  · intro d t h
    rw [Transaction.from_json] at h
    have := init_size_ge env _ none none fid now t h
    exact ⟨this, by omega⟩

deriving instance DecidableEq for Except

/-! ### Concrete fixtures (used by witnesses and counterexamples) -/

/-- A non-coinbase transaction dict whose input amount (100) differs from
outputs (5) plus fee; `fee_rate` defaults make the reconstructed fee
`max(250 * 0.00001, 0.001) = 0.0025`. -/
def txj_nc : TxJson :=
  { id := "t1",
    input := some { timestamp := 1, amount := mkRat 100 1, address := "0xabc",
                    public_key := "aa", signature := "bb", prev_tx_ids := ["p1"] },
    output := [("bob", mkRat 5 1)], fee := mkRat 1 1000, size := 0,
    is_coinbase := some false }

/-- The same transaction dict with input timestamp 9. -/
def txj_nc9 : TxJson :=
  { id := "t1",
    input := some { timestamp := 9, amount := mkRat 100 1, address := "0xabc",
                    public_key := "aa", signature := "bb", prev_tx_ids := ["p1"] },
    output := [("bob", mkRat 5 1)], fee := mkRat 1 1000, size := 0,
    is_coinbase := some false }

/-- `Transaction.from_json env0 txj_nc "" 0` as a value. -/
def tx_nc : Transaction :=
  { id := "t1", is_coinbase := false, fee := mkRat 1 400, fee_rate := mkRat 1 100000,
    sender_address := some "0xabc", public_key := some "aa", signature := some "bb",
    recipient := some "bob", amount := some (mkRat 5 1),
    input := some { timestamp := 1, amount := mkRat 100 1, address := "0xabc",
                    public_key := "aa", signature := "bb", prev_tx_ids := ["p1"] },
    output := [("bob", mkRat 5 1)], size := 250 }

/-- `Transaction.from_json env0 txj_nc9 "" 0` as a value. -/
def tx_nc9 : Transaction :=
  { id := "t1", is_coinbase := false, fee := mkRat 1 400, fee_rate := mkRat 1 100000,
    sender_address := some "0xabc", public_key := some "aa", signature := some "bb",
    recipient := some "bob", amount := some (mkRat 5 1),
    input := some { timestamp := 9, amount := mkRat 100 1, address := "0xabc",
                    public_key := "aa", signature := "bb", prev_tx_ids := ["p1"] },
    output := [("bob", mkRat 5 1)], size := 250 }

/-- A coinbase transaction dict that declares `block_height = 210000` (one
halving, subsidy 25) and `fees = 0`, paying its single output 25. -/
def txj_cb : TxJson :=
  { id := "cb1",
    input := some { timestamp := 1, address := "coinbase", public_key := "coinbase",
                    signature := "coinbase", block_height := 210000,
                    fees := mkRat 0 1, subsidy := mkRat 25 1, coinbase_data := "x" },
    output := [("miner", mkRat 25 1)], fee := mkRat 0 1, size := 250,
    is_coinbase := some true }

/-- `Transaction.from_json env0 txj_cb "" 0` as a value. -/
def tx_cb : Transaction :=
  { id := "cb1", is_coinbase := true, fee := mkRat 0 1, fee_rate := mkRat 0 1,
    sender_address := none, public_key := none, signature := none,
    recipient := none, amount := none,
    input := some { timestamp := 1, address := "coinbase", public_key := "coinbase",
                    signature := "coinbase", block_height := 210000,
                    fees := mkRat 0 1, subsidy := mkRat 25 1, coinbase_data := "x" },
    output := [("miner", mkRat 25 1)], size := 250 }

/-- A parent block (all-zero digests are consistent with `env0.sha`). -/
def blk_prev : Block :=
  { timestamp := 1, last_hash := zeros64, hash := zeros64, data := [], difficulty := 3,
    nonce := 0, height := 0, version := 1, merkle_root := zeros64, tx_count := 0 }

/-- A block at height 1 whose only transaction is `txj_cb`; under `env0` it
passes every check of `Block.is_valid_block` although its coinbase output
(25) is not `subsidy(1) + fees = 50`. -/
def blk_cb : Block :=
  { timestamp := 2, last_hash := zeros64, hash := zeros64, data := [txj_cb],
    difficulty := 3, nonce := 0, height := 1, version := 1, merkle_root := zeros64,
    tx_count := 1 }

/-- A one-transaction mempool holding `tx_nc` (fee `0.0025`). -/
def pool_w : Pool := [("t1", tx_nc)]

/-- An empty blockchain state. -/
def st_empty : BlockchainSt := { chain := [], utxo_set := [], current_height := 0 }

/-- A block JSON carrying difficulty `-5` (otherwise well-formed). -/
def bj_neg : BlockJson :=
  { timestamp := 1, last_hash := zeros64, hash := zeros64, data := [],
    difficulty := -5, nonce := 0 }

/-- The block `Block.from_json env0 bj_neg` constructs: difficulty clamped
to 1. -/
def blk_neg : Block :=
  { timestamp := 1, last_hash := zeros64, hash := zeros64, data := [], difficulty := 1,
    nonce := 0, height := 0, version := 1, merkle_root := zeros64, tx_count := 0 }

/-! ### Claim theorems -/

/-- C9 witness: the deserialized `tx_nc` has size 250 ≥ `BASE_TX_SIZE` > 0. -/
theorem transaction_size_lower_bound_witness :
    Transaction.from_json env0 txj_nc "" 0 = .ok tx_nc ∧
    BASE_TX_SIZE ≤ tx_nc.size ∧ tx_nc.size ≠ 0 :=
  have h : Transaction.from_json env0 txj_nc "" 0 = .ok tx_nc := by decide
  ⟨h, (transaction_size_lower_bound env0 {} none none "" 0).2 txj_nc tx_nc h⟩

set_option maxHeartbeats 1000000

/-- C10: every constructed `Block` has `difficulty ≥ 1`: the constructor
clamps the supplied value to `max(1, difficulty)` instead of rejecting it,
so `from_json` with difficulty 0 or negative silently normalizes it to 1
(producing the same block as difficulty 1) rather than raising. -/
theorem block_difficulty_clamped (env : Env) (ts : ℤ) (lh hsh : String)
    (data : List TxJson) (difficulty nonce : ℤ) (ho hv : Option ℤ)
    (hm : Option String) (htc : Option ℤ) (j : BlockJson) :
    (∀ b, Block.init env ts lh hsh data difficulty nonce ho hv hm htc = .ok b →
      1 ≤ b.difficulty) ∧
    (j.difficulty ≤ 0 →
      Block.from_json env j = Block.from_json env { j with difficulty := 1 }) := by
  constructor
  · intro b h
    unfold Block.init at h
    dsimp only at h
    repeat' split at h
    all_goals cases h
    all_goals (dsimp only; exact le_max_left 1 difficulty)
  · intro hle
    have hmax : max 1 j.difficulty = max 1 (1 : ℤ) := by omega
    simp only [Block.from_json, Block.init, hmax]

/-- C10 witness: `from_json` on difficulty `-5` succeeds with difficulty 1
and agrees with the same JSON carrying difficulty 1. -/
theorem block_difficulty_clamped_witness :
    Block.from_json env0 bj_neg = .ok blk_neg ∧ 1 ≤ blk_neg.difficulty ∧
    Block.from_json env0 bj_neg = Block.from_json env0 { bj_neg with difficulty := 1 } :=
  have h : Block.from_json env0 bj_neg = .ok blk_neg := by decide
  ⟨h,
   (block_difficulty_clamped env0 1 zeros64 zeros64 [] (-5) 0 (some 0) (some 1)
      (some zeros64) (some 0) bj_neg).1 blk_neg h,
   (block_difficulty_clamped env0 1 zeros64 zeros64 [] (-5) 0 (some 0) (some 1)
      (some zeros64) (some 0) bj_neg).2 (by decide)⟩

theorem replace_chain_body_rebuild {env : Env} {now : ℤ} {st : BlockchainSt}
    {chain : List Block} {pool : Option Pool} {u : UtxoSet}
    (h : Blockchain.replace_chain_body env now st chain pool = .ok u) :
    Blockchain.rebuild_utxo_set env chain = .ok u := by
  unfold Blockchain.replace_chain_body at h
  simp only [bind, Except.bind] at h
  repeat' split at h
  all_goals first
    | cases h
    | exact h

/-- C2: chain replacement is atomic.  If `replace_chain` raises (candidate
not strictly longer, invalid chain, or UTXO rebuild failure), the resulting
`chain`, `utxo_set` and `current_height` are exactly the prior state; on
success they become the candidate chain, the rebuilt UTXO set, and
`len(chain) - 1`. -/
theorem replace_chain_atomic (env : Env) (now : ℤ) (st : BlockchainSt)
    (chain : List Block) (pool : Option Pool) :
    (∀ e, (Blockchain.replace_chain env now st chain pool).2 = .error e →
      (Blockchain.replace_chain env now st chain pool).1 = st) ∧
    ((Blockchain.replace_chain env now st chain pool).2 = .ok () →
      (Blockchain.replace_chain env now st chain pool).1.chain = chain ∧
      (∃ u, Blockchain.rebuild_utxo_set env chain = .ok u ∧
        (Blockchain.replace_chain env now st chain pool).1.utxo_set = u) ∧
      (Blockchain.replace_chain env now st chain pool).1.current_height =
        (chain.length : ℤ) - 1) := by
  unfold Blockchain.replace_chain
  dsimp only
  cases hbody : Blockchain.replace_chain_body env now st chain pool with
  | ok u =>
    refine ⟨fun e he => ?_, fun _ => ?_⟩
    · cases he
    · exact ⟨rfl, ⟨u, replace_chain_body_rebuild hbody, rfl⟩, rfl⟩
  | error e =>
    refine ⟨fun e' _ => rfl, fun hok => ?_⟩
    cases hok

/-- C2 witness: replacing with a non-longer candidate fails and leaves the
state untouched. -/
theorem replace_chain_atomic_witness :
    (Blockchain.replace_chain env0 0 st_empty [] none).2 =
      .error "Chain replacement failed: New chain must be longer" ∧
    (Blockchain.replace_chain env0 0 st_empty [] none).1 = st_empty :=
  ⟨by decide,
   (replace_chain_atomic env0 0 st_empty [] none).1
     "Chain replacement failed: New chain must be longer" (by decide)⟩

theorem char_eq_of_toNat_eq {a b : Char} (h : a.toNat = b.toNat) : a = b := by
  have := congrArg Char.ofNat h
  rwa [Char.ofNat_toNat, Char.ofNat_toNat] at this

theorem charListLe_total : ∀ as bs, charListLe as bs = true ∨ charListLe bs as = true := by
  intro as
  induction as with
  | nil => intro bs; left; rfl
  | cons a as ih =>
    intro bs
    cases bs with
    | nil => right; rfl
    | cons b bt =>
      simp only [charListLe]
      rcases Nat.lt_trichotomy a.toNat b.toNat with h | h | h
      · left
        simp [h]
      · have h1 : ¬a.toNat < b.toNat := by omega
        have h2 : ¬b.toNat < a.toNat := by omega
        simpa [h1, h2] using ih bt
      · right
        simp [h]

theorem charListLe_trans : ∀ as bs cs, charListLe as bs = true →
    charListLe bs cs = true → charListLe as cs = true := by
  intro as
  induction as with
  | nil => intro bs cs _ _; rfl
  | cons a as ih =>
    intro bs cs h1 h2
    cases bs with
    | nil => cases h1
    | cons b bt =>
      cases cs with
      | nil => cases h2
      | cons c ct =>
        simp only [charListLe] at h1 h2 ⊢
        rcases Nat.lt_trichotomy a.toNat b.toNat with hab | hab | hab
        · rcases Nat.lt_trichotomy b.toNat c.toNat with hbc | hbc | hbc
          · simp [show a.toNat < c.toNat from by omega]
          · simp [show a.toNat < c.toNat from by omega]
          · rw [if_neg (by omega), if_pos (by omega)] at h2
            cases h2
        · rcases Nat.lt_trichotomy b.toNat c.toNat with hbc | hbc | hbc
          · simp [show a.toNat < c.toNat from by omega]
          · rw [if_neg (by omega), if_neg (by omega)] at h1
            rw [if_neg (by omega), if_neg (by omega)] at h2
            rw [if_neg (by omega), if_neg (by omega)]
            exact ih bt ct h1 h2
          · rw [if_neg (by omega), if_pos (by omega)] at h2
            cases h2
        · rw [if_neg (by omega), if_pos (by omega)] at h1
          cases h1

theorem charListLe_antisymm : ∀ as bs, charListLe as bs = true →
    charListLe bs as = true → as = bs := by
  intro as
  induction as with
  | nil =>
    intro bs _ h2
    cases bs with
    | nil => rfl
    | cons b bt => simp [charListLe] at h2
  | cons a as ih =>
    intro bs h1 h2
    cases bs with
    | nil => simp [charListLe] at h1
    | cons b bt =>
      simp only [charListLe] at h1 h2
      rcases Nat.lt_trichotomy a.toNat b.toNat with hab | hab | hab
      · rw [if_neg (by omega), if_pos (by omega)] at h2
        cases h2
      · rw [if_neg (by omega), if_neg (by omega)] at h1
        rw [if_neg (by omega), if_neg (by omega)] at h2
        rw [char_eq_of_toNat_eq hab, ih bt h1 h2]
      · rw [if_neg (by omega), if_pos (by omega)] at h1
        cases h1

theorem pyStrLe_total (a b : String) : pyStrLe a b = true ∨ pyStrLe b a = true :=
  charListLe_total a.data b.data

theorem pyStrLe_trans {a b c : String} (h1 : pyStrLe a b = true)
    (h2 : pyStrLe b c = true) : pyStrLe a c = true :=
  charListLe_trans a.data b.data c.data h1 h2

theorem pyStrLe_antisymm {a b : String} (h1 : pyStrLe a b = true)
    (h2 : pyStrLe b a = true) : a = b := by
  cases a with
  | mk as =>
    cases b with
    | mk bs =>
      have := charListLe_antisymm as bs h1 h2
      rw [this]

theorem strInsert_perm (x : String) (l : List String) :
    (strInsert x l).Perm (x :: l) := by
  induction l with
  | nil => rfl
  | cons y ys ih =>
    rw [strInsert]
    split
    · rfl
    · exact (ih.cons y).trans (List.Perm.swap x y ys)

theorem strSort_perm (l : List String) : (strSort l).Perm l := by
  induction l with
  | nil => rfl
  | cons x t ih =>
    exact (strInsert_perm x (strSort t)).trans (ih.cons x)

theorem strInsert_sorted (x : String) (l : List String)
    (h : l.Pairwise (fun a b => pyStrLe a b = true)) :
    (strInsert x l).Pairwise (fun a b => pyStrLe a b = true) := by
  induction l with
  | nil => simp [strInsert]
  | cons y ys ih =>
    rw [List.pairwise_cons] at h
    rw [strInsert]
    split
    · rename_i hxy
      refine List.Pairwise.cons ?_ (List.Pairwise.cons h.1 h.2)
      intro z hz
      rcases List.mem_cons.mp hz with rfl | hz
      · exact hxy
      · exact pyStrLe_trans hxy (h.1 z hz)
    · rename_i hxy
      have hyx : pyStrLe y x = true := by
        rcases pyStrLe_total x y with hx | hx
        · exact absurd hx hxy
        · exact hx
      refine List.Pairwise.cons ?_ (ih h.2)
      intro z hz
      have hz' := (strInsert_perm x ys).mem_iff.mp hz
      rcases List.mem_cons.mp hz' with rfl | hz'
      · exact hyx
      · exact h.1 z hz'

theorem strSort_sorted (l : List String) :
    (strSort l).Pairwise (fun a b => pyStrLe a b = true) := by
  induction l with
  | nil => simp [strSort]
  | cons x t ih => exact strInsert_sorted x (strSort t) ih

theorem strSort_eq_of_perm {l l' : List String} (h : l.Perm l') :
    strSort l = strSort l' := by
  haveI : IsAntisymm String (fun a b => pyStrLe a b = true) :=
    ⟨fun _ _ => pyStrLe_antisymm⟩
  exact List.eq_of_perm_of_sorted
    ((strSort_perm l).trans (h.trans (strSort_perm l').symm))
    (strSort_sorted l) (strSort_sorted l')

/-- C8: `crypto_hash` is invariant under permutation of its arguments,
because each argument is canonically serialized and the serialized strings
are sorted before concatenation; hence any two hash calls over the same
multiset of field values collide. -/
theorem crypto_hash_perm_invariant (env : Env) (l1 l2 : List HArg)
    (h : l1.Perm l2) : crypto_hash env l1 = crypto_hash env l2 := by
  unfold crypto_hash
  rw [strSort_eq_of_perm (h.map (dumpArg env))]

/-- C8 witness: swapping two arguments leaves the digest unchanged. -/
theorem crypto_hash_perm_invariant_witness :
    crypto_hash env0 [HArg.s "a", HArg.s "b"] =
      crypto_hash env0 [HArg.s "b", HArg.s "a"] :=
  crypto_hash_perm_invariant env0 _ _ (List.Perm.swap _ _ _)

/-- One level of the reference Merkle computation, written from the
specification: hash the concatenation of adjacent pairs, carry a lone final
hash up unchanged. -/
def merkleLevelSpec (env : Env) : List String → List String
  | [] => []
  | [h] => [h]
  | a :: b :: rest => crypto_hash env [.s (a ++ b)] :: merkleLevelSpec env rest

theorem merkleLevelSpec_eq_pairPass (env : Env) (l : List String) :
    merkleLevelSpec env l = merklePairPass env l := by
  induction l using merklePairPass.induct env with
  | case1 a b rest ih => simp [merkleLevelSpec, merklePairPass, ih]
  | case2 a => rfl
  | case3 => rfl

/-- Reference reduction of a level list to the root, written from the
specification: repeat `merkleLevelSpec` until one hash remains. -/
def merkleCombineSpec (env : Env) (hs : List String) : String :=
  if _h : hs.length ≤ 1 then hs.headD ""
  else merkleCombineSpec env (merkleLevelSpec env hs)
termination_by hs.length
decreasing_by
  simp only [merkleLevelSpec_eq_pairPass, merklePairPass_length]
  omega

/-- The reference Merkle definition, written from the specification: leaves
are the canonical-serialization hashes of the transactions; levels pair
adjacent hashes; the empty transaction list maps to `crypto_hash('')`. -/
def merkle_root_spec (env : Env) (data : List TxJson) : String :=
  match data with
  | [] => crypto_hash env [.s ""]
  | _ => merkleCombineSpec env (data.map (fun t => crypto_hash env [.s (env.serTx t)]))

theorem merkleLoopGo_eq_combine (env : Env) : ∀ (n : ℕ) (hs : List String),
    hs.length ≤ n + 1 → merkleLoopGo env n hs = merkleCombineSpec env hs := by
  intro n
  induction n with
  | zero =>
    intro hs h
    rw [merkleCombineSpec, dif_pos h, merkleLoopGo]
  | succ n ih =>
    intro hs h
    by_cases hle : hs.length ≤ 1
    · rw [merkleCombineSpec, dif_pos hle, merkleLoopGo, if_pos hle]
    · rw [merkleCombineSpec, dif_neg hle, merkleLoopGo, if_neg hle,
        merkleLevelSpec_eq_pairPass]
      refine ih (merklePairPass env hs) ?_
      rw [merklePairPass_length]
      omega

theorem merkleLoop_eq_combine (env : Env) (hs : List String) :
    merkleLoop env hs = merkleCombineSpec env hs :=
  merkleLoopGo_eq_combine env hs.length hs (by omega)

/-- C3: `Block.calculate_merkle_root` equals the reference Merkle
definition for every transaction list; in particular the empty list hashes
to `crypto_hash('')` and three leaves give `H(H(h1 || h2) || h3)`. -/
theorem merkle_root_matches_reference (env : Env) :
    (∀ data, Block.calculate_merkle_root env data = merkle_root_spec env data) ∧
    Block.calculate_merkle_root env [] = crypto_hash env [.s ""] ∧
    (∀ t1 t2 t3 : TxJson, Block.calculate_merkle_root env [t1, t2, t3] =
      crypto_hash env [.s (crypto_hash env
          [.s (crypto_hash env [.s (env.serTx t1)] ++ crypto_hash env [.s (env.serTx t2)])]
        ++ crypto_hash env [.s (env.serTx t3)])]) := by
  refine ⟨?_, ?_, ?_⟩
  · intro data
    cases data with
    | nil => simp [Block.calculate_merkle_root, merkle_root_spec]
    | cons a l =>
      simp [Block.calculate_merkle_root, merkle_root_spec, merkleLoop_eq_combine]
  · simp [Block.calculate_merkle_root]
  · intro t1 t2 t3
    simp [Block.calculate_merkle_root, merkleLoop, merkleLoopGo, merklePairPass]

/-- C5: `Block.is_valid_block` accepts only blocks whose difficulty lies in
`[prev.difficulty / 2, prev.difficulty * 2]`, whose timestamp strictly
exceeds the parent's, and whose timestamp is not in the future; whenever one
of the three conditions fails it raises. -/
theorem block_validation_conditions (env : Env) (now : ℤ) (lb b : Block) :
    (Block.is_valid_block env now lb b = .ok () →
      (lb.difficulty : ℚ) / 2 ≤ (b.difficulty : ℚ) ∧
      (b.difficulty : ℚ) ≤ (lb.difficulty : ℚ) * 2 ∧
      lb.timestamp < b.timestamp ∧ b.timestamp ≤ now) ∧
    (¬((lb.difficulty : ℚ) / 2 ≤ (b.difficulty : ℚ) ∧
       (b.difficulty : ℚ) ≤ (lb.difficulty : ℚ) * 2 ∧
       lb.timestamp < b.timestamp ∧ b.timestamp ≤ now) →
      ∃ e, Block.is_valid_block env now lb b = .error e) := by
  have main : Block.is_valid_block env now lb b = .ok () →
      (lb.difficulty : ℚ) / 2 ≤ (b.difficulty : ℚ) ∧
      (b.difficulty : ℚ) ≤ (lb.difficulty : ℚ) * 2 ∧
      lb.timestamp < b.timestamp ∧ b.timestamp ≤ now := by
    intro h
    unfold Block.is_valid_block at h
    repeat' split at h
    all_goals try cases h
    all_goals
      (simp only [Bool.or_eq_true, decide_eq_true_eq, not_or, not_lt, not_le,
         qmul_eq, qdiv_eq, mkRat_two] at *
       refine ⟨by linarith, by linarith, by omega, by omega⟩)
  refine ⟨main, fun hnc => ?_⟩
  cases hres : Block.is_valid_block env now lb b with
  | ok u => cases u; exact absurd (main hres) hnc
  | error e => exact ⟨e, rfl⟩

/-- C5 witness: a concretely accepted block satisfies all three
conditions. -/
theorem block_validation_conditions_witness :
    Block.is_valid_block env0 10 blk_prev blk_cb = .ok () ∧
    ((blk_prev.difficulty : ℚ) / 2 ≤ (blk_cb.difficulty : ℚ) ∧
     (blk_cb.difficulty : ℚ) ≤ (blk_prev.difficulty : ℚ) * 2 ∧
     blk_prev.timestamp < blk_cb.timestamp ∧ blk_cb.timestamp ≤ 10) :=
  have h : Block.is_valid_block env0 10 blk_prev blk_cb = .ok () := by decide
  ⟨h, (block_validation_conditions env0 10 blk_prev blk_cb).1 h⟩

theorem set_transaction_ok_valid {env : Env} {pool : Pool} {t : Transaction}
    {pool' : Pool} (h : TransactionPool.set_transaction env pool t = .ok pool') :
    ∃ b, Transaction.is_valid env t none none = .ok b := by
  unfold TransactionPool.set_transaction at h
  simp only [bind, Except.bind] at h
  split at h
  · cases h
  · rename_i b heq
    exact ⟨b, heq⟩

theorem set_transaction_ok_none {env : Env} {pool : Pool} {t : Transaction}
    {pool' : Pool} (hnone : aget pool t.id = none)
    (h : TransactionPool.set_transaction env pool t = .ok pool') :
    pool' = aset pool t.id t := by
  unfold TransactionPool.set_transaction at h
  simp only [bind, Except.bind] at h
  split at h
  · cases h
  · rw [hnone] at h
    dsimp only at h
    simp only [pure, Except.pure, Except.ok.injEq] at h
    exact h.symm

theorem set_transaction_ok_some {env : Env} {pool : Pool} {t old : Transaction}
    {pool' : Pool} (hsome : aget pool t.id = some old)
    (h : TransactionPool.set_transaction env pool t = .ok pool') :
    pool' = if txTimestamp t > txTimestamp old then aset pool t.id t else pool := by
  unfold TransactionPool.set_transaction at h
  simp only [bind, Except.bind] at h
  split at h
  · cases h
  · rw [hsome] at h
    dsimp only at h
    split at h
    · rename_i hgt
      rw [if_pos hgt]
      simp only [pure, Except.pure, Except.ok.injEq] at h
      exact h.symm
    · rename_i hgt
      rw [if_neg hgt]
      simp only [pure, Except.pure, Except.ok.injEq] at h
      exact h.symm

/-- C6: mempool replace-by-newer.  For two valid transactions with the same
id and distinct input timestamps, ingesting them in either order (into a
pool not yet holding that id) leaves an entry carrying the larger
timestamp; and re-setting the same transaction leaves the pool map exactly
as after the first call. -/
theorem mempool_replace_by_newer (env : Env) (p : Pool) (t1 t2 : Transaction) :
    (t2.id = t1.id → aget p t1.id = none → txTimestamp t1 ≠ txTimestamp t2 →
      ∀ p1 p12 q1 q12 : Pool,
        TransactionPool.set_transaction env p t1 = .ok p1 →
        TransactionPool.set_transaction env p1 t2 = .ok p12 →
        TransactionPool.set_transaction env p t2 = .ok q1 →
        TransactionPool.set_transaction env q1 t1 = .ok q12 →
        (aget p12 t1.id).map txTimestamp =
          some (max (txTimestamp t1) (txTimestamp t2)) ∧
        (aget q12 t1.id).map txTimestamp =
          some (max (txTimestamp t1) (txTimestamp t2))) ∧
    (∀ q q1 : Pool, TransactionPool.set_transaction env q t1 = .ok q1 →
      TransactionPool.set_transaction env q1 t1 = .ok q1) := by
  constructor
  · intro hid hnone _hne p1 p12 q1 q12 h1 h2 h3 h4
    have hp1 : p1 = aset p t1.id t1 := set_transaction_ok_none hnone h1
    have hq1 : q1 = aset p t1.id t2 := by
      have := set_transaction_ok_none (by rw [hid]; exact hnone) h3
      rwa [hid] at this
    have hget1 : aget p1 t2.id = some t1 := by
      rw [hp1, hid, aget_aset_self]
    have hget2 : aget q1 t1.id = some t2 := by
      rw [hq1, aget_aset_self]
    have hp12 := set_transaction_ok_some hget1 h2
    have hq12 := set_transaction_ok_some hget2 h4
    constructor
    · by_cases hgt : txTimestamp t2 > txTimestamp t1
      · rw [if_pos hgt] at hp12
        rw [hp12, ← hid, aget_aset_self]
        simp [max_eq_right (le_of_lt hgt)]
      · rw [if_neg hgt] at hp12
        rw [hp12, hp1, aget_aset_self]
        simp [max_eq_left (not_lt.mp hgt)]
    · by_cases hgt : txTimestamp t1 > txTimestamp t2
      · rw [if_pos hgt] at hq12
        rw [hq12, aget_aset_self]
        simp [max_eq_left (le_of_lt hgt)]
      · rw [if_neg hgt] at hq12
        rw [hq12, hq1, aget_aset_self]
        simp [max_eq_right (not_lt.mp hgt)]
  · intro q q1 h
    obtain ⟨b, hb⟩ := set_transaction_ok_valid h
    cases hget : aget q t1.id with
    | none =>
      have hq1 : q1 = aset q t1.id t1 := set_transaction_ok_none hget h
      unfold TransactionPool.set_transaction
      simp only [bind, Except.bind, hb]
      rw [hq1]
      simp [aget_aset_self, lt_irrefl, pure, Except.pure]
    | some old =>
      have hq1 := set_transaction_ok_some hget h
      by_cases hgt : txTimestamp t1 > txTimestamp old
      · rw [if_pos hgt] at hq1
        unfold TransactionPool.set_transaction
        simp only [bind, Except.bind, hb]
        rw [hq1]
        simp [aget_aset_self, lt_irrefl, pure, Except.pure]
      · rw [if_neg hgt] at hq1
        unfold TransactionPool.set_transaction
        simp only [bind, Except.bind, hb]
        rw [hq1, hget]
        simp [hgt, pure, Except.pure]

/-- C6 witness: ingesting timestamps 1 and 9 in either order stores 9,
and re-setting is a no-op. -/
theorem mempool_replace_by_newer_witness :
    (aget [("t1", tx_nc9)] tx_nc.id).map txTimestamp =
      some (max (txTimestamp tx_nc) (txTimestamp tx_nc9)) ∧
    TransactionPool.set_transaction env0 [("t1", tx_nc)] tx_nc = .ok [("t1", tx_nc)] :=
  ⟨((mempool_replace_by_newer env0 [] tx_nc tx_nc9).1 (by decide) (by decide) (by decide)
      [("t1", tx_nc)] [("t1", tx_nc9)] [("t1", tx_nc9)] [("t1", tx_nc9)]
      (by decide) (by decide) (by decide) (by decide)).1,
   (mempool_replace_by_newer env0 [] tx_nc tx_nc9).2 [] [("t1", tx_nc)] (by decide)⟩

/-- The specification's pending-spends formula: over mempool transactions
whose (truthy) input address is the given address, sum `amount + fee` for
each output paid to a different address. -/
def pending_spends_formula_fee (pool : Pool) (address : String) : ℚ :=
  ((pool.map Prod.snd).map (fun t =>
      if (match t.input with
          | some i => !i.empty && i.address == address
          | none => false) then
        ((t.output.filter (fun ao => ao.1 ≠ address)).map (fun ao => ao.2 + t.fee)).sum
      else 0)).sum

/-- The same formula without the fee term (what
`TransactionPool.pending_spends` actually computes). -/
def pending_spends_formula_nofee (pool : Pool) (address : String) : ℚ :=
  ((pool.map Prod.snd).map (fun t =>
      if (match t.input with
          | some i => i.address == address
          | none => false) then
        ((t.output.filter (fun ao => ao.1 ≠ address)).map (fun ao => ao.2)).sum
      else 0)).sum

theorem pending_inner_fee (address : String) (fee : ℚ) :
    ∀ (out : List (String × ℚ)) (acc : ℚ),
      out.foldl (fun a ao => if ao.1 != address then qadd a (qadd ao.2 fee) else a) acc =
        acc + ((out.filter (fun ao => ao.1 ≠ address)).map (fun ao => ao.2 + fee)).sum := by
  intro out
  induction out with
  | nil =>
    intro acc
    simp
  | cons ao rest ih =>
    intro acc
    rw [List.foldl_cons, List.filter_cons]
    by_cases hne : ao.1 = address
    · have hb : (ao.1 != address) = false := by simp [bne, hne]
      have hd : (decide (ao.1 ≠ address)) = false := by simp [hne]
      simp only [hb, Bool.false_eq_true, if_false, hd]
      exact ih acc
    · have hb : (ao.1 != address) = true := by simp [bne, hne]
      have hd : (decide (ao.1 ≠ address)) = true := by simp [hne]
      simp only [hb, if_true, hd, List.map_cons, List.sum_cons]
      rw [ih, qadd_eq, qadd_eq]
      ring

theorem pending_inner_nofee (address : String) :
    ∀ (out : List (String × ℚ)) (acc : ℚ),
      out.foldl (fun a ao => if ao.1 != address then qadd a ao.2 else a) acc =
        acc + ((out.filter (fun ao => ao.1 ≠ address)).map (fun ao => ao.2)).sum := by
  intro out
  induction out with
  | nil =>
    intro acc
    simp
  | cons ao rest ih =>
    intro acc
    rw [List.foldl_cons, List.filter_cons]
    by_cases hne : ao.1 = address
    · have hb : (ao.1 != address) = false := by simp [bne, hne]
      have hd : (decide (ao.1 ≠ address)) = false := by simp [hne]
      simp only [hb, Bool.false_eq_true, if_false, hd]
      exact ih acc
    · have hb : (ao.1 != address) = true := by simp [bne, hne]
      have hd : (decide (ao.1 ≠ address)) = true := by simp [hne]
      simp only [hb, if_true, hd, List.map_cons, List.sum_cons]
      rw [ih, qadd_eq]
      ring

theorem pending_tx_fold (address : String) :
    ∀ (pool : Pool) (acc : ℚ),
      pool.foldl
        (fun acc kv =>
          match kv.2.input with
          | some i =>
            if !i.empty && i.address == address then
              kv.2.output.foldl
                (fun a ao => if ao.1 != address then qadd a (qadd ao.2 kv.2.fee) else a)
                acc
            else acc
          | none => acc)
        acc =
      acc + pending_spends_formula_fee pool address := by
  intro pool
  induction pool with
  | nil =>
    intro acc
    simp [pending_spends_formula_fee]
  | cons kv rest ih =>
    intro acc
    rw [List.foldl_cons]
    cases hkv : kv.2.input with
    | none =>
      simp only [pending_spends_formula_fee, List.map_cons, List.sum_cons, hkv]
      rw [ih]
      simp [pending_spends_formula_fee]
    | some i =>
      by_cases hmatch : (!i.empty && i.address == address) = true
      · simp only [hkv, hmatch, if_true]
        rw [pending_inner_fee, ih]
        simp only [pending_spends_formula_fee, List.map_cons, List.sum_cons, hkv, hmatch,
          if_true]
        ring
      · simp only [hkv, hmatch, if_false, Bool.false_eq_true]
        rw [ih]
        simp only [pending_spends_formula_fee, List.map_cons, List.sum_cons, hkv, hmatch,
          Bool.false_eq_true, if_false]
        ring

theorem pending_pool_fold (address : String) :
    ∀ (pool : Pool) (acc : ℚ), (∀ kv ∈ pool, (kv.2.input).isSome) →
      List.foldlM
        (fun (acc : ℚ) kv =>
          (match kv.2.input with
           | none => throw "AttributeError: NoneType has no attribute get"
           | some i =>
             if i.address == address then
               pure (kv.2.output.foldl
                 (fun a ao => if ao.1 != address then qadd a ao.2 else a) acc)
             else pure acc : Except String ℚ))
        acc pool =
        Except.ok (acc + pending_spends_formula_nofee pool address) := by
  intro pool
  induction pool with
  | nil =>
    intro acc _
    simp [pending_spends_formula_nofee, List.foldlM, pure, Except.pure]
  | cons kv rest ih =>
    intro acc hsome
    obtain ⟨i, hi⟩ := Option.isSome_iff_exists.mp (hsome kv (List.mem_cons_self _ _))
    rw [List.foldlM_cons]
    simp only [hi]
    have hrest := ih acc (fun kv2 hk => hsome kv2 (List.mem_cons_of_mem _ hk))
    by_cases haddr : (i.address == address) = true
    · simp only [haddr, if_true, pure_bind]
      rw [pending_inner_nofee,
        ih _ (fun kv2 hk => hsome kv2 (List.mem_cons_of_mem _ hk))]
      simp only [pending_spends_formula_nofee, List.map_cons, List.sum_cons, hi, haddr,
        if_true, Except.ok.injEq]
      ring_nf
    · simp only [haddr, if_false, Bool.false_eq_true, pure_bind]
      rw [ih _ (fun kv2 hk => hsome kv2 (List.mem_cons_of_mem _ hk))]
      simp only [pending_spends_formula_nofee, List.map_cons, List.sum_cons, hi, haddr,
        Bool.false_eq_true, if_false, Except.ok.injEq]
      ring

/-- C7 (amended): `Transaction.pending_spends` computes the
specification's formula (with the fee added per foreign output), while
`TransactionPool.pending_spends` computes the same sum *without* the fee
(and raises on a `None` input). -/
theorem pending_spends_formulas (pool : Pool) (address : String) :
    Transaction.pending_spends pool address = pending_spends_formula_fee pool address ∧
    ((∀ kv ∈ pool, (kv.2.input).isSome) →
      TransactionPool.pending_spends pool address =
        .ok (pending_spends_formula_nofee pool address)) := by
  constructor
  · rw [Transaction.pending_spends, pending_tx_fold, qzero_eq, zero_add]
  · intro hsome
    rw [TransactionPool.pending_spends, pending_pool_fold address pool _ hsome,
      qzero_eq, zero_add]

/-- C7 witness: the formulas instantiated on the one-transaction pool. -/
theorem pending_spends_formulas_witness :
    Transaction.pending_spends pool_w "0xabc" =
      pending_spends_formula_fee pool_w "0xabc" ∧
    TransactionPool.pending_spends pool_w "0xabc" =
      .ok (pending_spends_formula_nofee pool_w "0xabc") :=
  ⟨(pending_spends_formulas pool_w "0xabc").1,
   (pending_spends_formulas pool_w "0xabc").2 (by decide)⟩

/-- C7 counterexample: on a pool holding one valid transaction with fee
`0.0025` and one foreign output of `5`, `Transaction.pending_spends`
returns `5.0025` while `TransactionPool.pending_spends` returns `5`, so
the two implementations do not return equal values on every input. -/
theorem pending_spends_implementations_differ :
    Transaction.is_valid env0 tx_nc none none = .ok true ∧
    Transaction.pending_spends pool_w "0xabc" = mkRat 2001 400 ∧
    TransactionPool.pending_spends pool_w "0xabc" = .ok (mkRat 5 1) ∧
    (mkRat 2001 400 : ℚ) ≠ mkRat 5 1 := by
  decide

/-- C1: the conservation check of `Transaction.is_valid` is vacuous.  The
deserialized `tx_nc` declares input amount 100 against outputs 5 plus fee
0.0025, yet `is_valid` accepts it: the check on transaction.py line 197
reads `abs(...) < 0`, which no value satisfies, so conservation is never
enforced (spec section 9 note 2 records this slip). -/
theorem conservation_check_vacuous :
    Transaction.from_json env0 txj_nc "" 0 = .ok tx_nc ∧
    Transaction.is_valid env0 tx_nc none none = .ok true ∧
    (match tx_nc.input with | some i => i.amount | none => mkRat 0 1) = mkRat 100 1 ∧
    qadd (qsum (tx_nc.output.map (·.2))) tx_nc.fee = mkRat 2001 400 ∧
    (mkRat 100 1 : ℚ) ≠ mkRat 2001 400 := by
  decide

/-- C4 counterexample: under `env0`, the block `blk_cb` at height 1 passes
`Block.is_valid_block` although its single coinbase output totals 25 while
`subsidy(1) + Σ fees = 50`: the coinbase's own input declares
`block_height = 210000`, `Transaction.is_valid` checks the output against
that declared height, and the block-level check only bounds the output from
above. -/
theorem coinbase_budget_counterexample :
    Block.is_valid_block env0 10 blk_prev blk_cb = .ok () ∧
    blk_cb.data = [txj_cb] ∧
    Transaction.from_json env0 txj_cb "" 0 = .ok tx_cb ∧
    qsum (tx_cb.output.map (·.2)) = mkRat 25 1 ∧
    qadd (pySubsidy blk_cb.height) (mkRat 0 1) = mkRat 50 1 ∧
    (mkRat 25 1 : ℚ) ≠ mkRat 50 1 := by
  decide

/-- C4 (amended): `Transaction.is_valid` forces a coinbase transaction to
have exactly one positive output equal (within `1e-9`) to
`subsidy(input.block_height) + input.fees` — the height and fees the
transaction itself declares; `Block.is_valid_block` additionally bounds the
coinbase output total by `subsidy(block.height) + Σ non-coinbase fees` from
above.  Equality with the block's actual height and fees is not enforced. -/
theorem coinbase_budget_amended (env : Env) :
    (∀ (t : Transaction) (bc : Option BlockchainView) (pool : Option Pool) (b : Bool),
      t.is_coinbase = true → Transaction.is_valid env t bc pool = .ok b →
      ∃ i, t.input = some i ∧ t.output.length = 1 ∧
        mkRat 0 1 < (t.output.headD ("", mkRat 0 1)).2 ∧
        |qsub (t.output.headD ("", mkRat 0 1)).2
            (qadd (pySubsidy i.block_height) i.fees)| ≤ EPS9) ∧
    (∀ (now : ℤ) (lb b : Block) (cnt : ℕ) (fees : ℚ) (ctx : Option Transaction)
        (tx : Transaction),
      Block.is_valid_block env now lb b = .ok () →
      Block.scan_transactions env b.data = .ok (cnt, fees, ctx) →
      ctx = some tx →
      qsum (tx.output.map (·.2)) ≤ qadd (pySubsidy b.height) fees) := by
  constructor
  · intro t bc pool b ht h
    unfold Transaction.is_valid at h
    simp only [ht, if_true] at h
    cases hin : t.input with
    | none =>
      rw [hin] at h
      cases h
    | some i =>
      rw [hin] at h
      dsimp only at h
      refine ⟨i, rfl, ?_⟩
      repeat' split at h
      all_goals try cases h
      rename_i hlen hpos heps
      refine ⟨by simpa using hlen, by simpa using hpos, ?_⟩
      exact le_of_not_lt heps
  · intro now lb b cnt fees ctx tx hvalid hscan hctx
    unfold Block.is_valid_block at hvalid
    repeat' split at hvalid
    all_goals try cases hvalid
    unfold Block.is_valid_block_rest at hvalid
    repeat' split at hvalid
    all_goals try cases hvalid
    all_goals
      (rename_i heq _hcnt
       have h3 := Except.ok.inj (hscan.symm.trans heq)
       rw [Prod.mk.injEq, Prod.mk.injEq] at h3
       obtain ⟨hc, hf, ho⟩ := h3
       rw [hctx] at ho)
    all_goals try exact Option.noConfusion ho
    all_goals
      (injection ho with ho2
       subst ho2
       subst hc
       subst hf
       dsimp only at hvalid
       split at hvalid
       · cases hvalid
       · rename_i a hif
         split at hif
         · cases hif
         · rename_i hle
           exact le_of_not_lt hle)

/-- Witness for `coinbase_budget_amended`: both parts instantiated at the
coinbase transaction `tx_cb` and the accepted block `blk_cb`, with every
hypothesis discharged by evaluation. -/
theorem coinbase_budget_amended_witness :
    (∃ i, tx_cb.input = some i ∧ tx_cb.output.length = 1 ∧
        mkRat 0 1 < (tx_cb.output.headD ("", mkRat 0 1)).2 ∧
        |qsub (tx_cb.output.headD ("", mkRat 0 1)).2
            (qadd (pySubsidy i.block_height) i.fees)| ≤ EPS9) ∧
    qsum (tx_cb.output.map (·.2)) ≤ qadd (pySubsidy blk_cb.height) (mkRat 0 1) :=
  ⟨(coinbase_budget_amended env0).1 tx_cb none none true (by decide) (by decide),
   (coinbase_budget_amended env0).2 10 blk_prev blk_cb 1 (mkRat 0 1) (some tx_cb)
     tx_cb (by decide) (by decide) rfl⟩

